import Mathlib

/-!
Verification of the PTM mutation visualisation framework
(`website/models.py`, `website/import_data.py`,
`website/imports/mutations/mimp.py`).

Sites of a protein are kept sorted ascending by position
(`Protein.sites` is ordered by `Site.position`); only the integer
positions matter to the proximity queries, so a protein's site list is
embedded as a `List Int`.  Python list indexing (with its negative-index
wrap-around and `IndexError` behaviour) is embedded explicitly, because
the scanning loops of `Mutation.cnt_ptm_affected` rely on it.
-/

/-- Python list indexing `l[i]`: a negative index counts from the end
(`l[-1]` is the last element); an index out of `[-len l, len l)` raises
`IndexError`, embedded as `none`. -/
def pyGet (l : List Int) (i : Int) : Option Int :=
  let j : Int := if i < 0 then (l.length : Int) + i else i
  if 0 ≤ j ∧ j < (l.length : Int) then l.get? j.toNat else none

/-- Boolean test that a list of positions is sorted ascending
(adjacent-pairs check); mirrors the `order_by='Site.position'`
guarantee of `Protein.sites`. -/
def sortedB : List Int → Bool
  | [] => true
  | [_] => true
  | a :: b :: rest => decide (a ≤ b) && sortedB (b :: rest)

/-- The window test of `Mutation.is_close_to_some_site`
(models.py line 333): `site_pos - left <= pos and pos <= site_pos + right`. -/
def inWindow (site_pos pos left right : Int) : Bool :=
  decide (site_pos - left ≤ pos) && decide (pos ≤ site_pos + right)

/-- The bisection loop of `Mutation.is_close_to_some_site`
(models.py lines 330-339).  The source's `while a != b` maintains
`a ≤ b` (initially `a = 0 ≤ b = len`, and each step sets `a := p+1 ≤ b`
or `b := p ≥ a`), so the guard is written `a < b`.  `sites[p]` with
`a ≤ p < b ≤ len` never raises, hence plain `getD`. -/
def is_close_aux (sites : List Int) (pos left right : Int) (a b : Nat) : Bool :=
  if h : a < b then
    let p := (b - a) / 2 + a
    let site_pos := sites.getD p 0
    if inWindow site_pos pos left right then true
    else if pos > site_pos then is_close_aux sites pos left right (p + 1) b
    else is_close_aux sites pos left right a p
  else false
termination_by b - a
decreasing_by
  · omega
  · omega

/-- `Mutation.is_close_to_some_site(left, right)` (models.py lines
315-339): bisection over the protein's position-sorted site list. -/
def is_close_to_some_site (sites : List Int) (pos left right : Int) : Bool :=
  is_close_aux sites pos left right 0 sites.length

lemma sortedB_tail {a : Int} {l : List Int} (h : sortedB (a :: l) = true) :
    sortedB l = true := by
  cases l with
  | nil => rfl
  | cons b rest =>
    simp only [sortedB, Bool.and_eq_true] at h
    exact h.2

lemma sortedB_adj {l : List Int} (h : sortedB l = true) :
    ∀ i, i + 1 < l.length → l.getD i 0 ≤ l.getD (i + 1) 0 := by
  induction l with
  | nil => intro i hi; simp at hi
  | cons a l ih =>
    intro i hi
    cases l with
    | nil => simp at hi
    | cons b rest =>
      have hab : a ≤ b ∧ sortedB (b :: rest) = true := by
        simpa [sortedB, Bool.and_eq_true] using h
      cases i with
      | zero => simpa [List.getD_cons_zero, List.getD_cons_succ] using hab.1
      | succ n =>
        have := ih (sortedB_tail h) n (by simpa using hi)
        simpa [List.getD_cons_succ] using this

lemma sortedB_mono {l : List Int} (h : sortedB l = true) :
    ∀ i j, i ≤ j → j < l.length → l.getD i 0 ≤ l.getD j 0 := by
  intro i j hij hj
  induction j, hij using Nat.le_induction with
  | base => exact le_refl _
  | succ n hn ih =>
    exact le_trans (ih (by omega)) (sortedB_adj h n (by omega))

lemma inWindow_iff {site_pos pos left right : Int} :
    inWindow site_pos pos left right = true ↔
      site_pos - left ≤ pos ∧ pos ≤ site_pos + right := by
  simp [inWindow]

/-- Correctness of the bisection loop on any index interval `[a, b)`:
given a sorted site list and non-negative margins, the loop answers
whether some index in the interval satisfies the window test. -/
lemma is_close_aux_iff (sites : List Int) (pos left right : Int)
    (hl : 0 ≤ left) (hr : 0 ≤ right) (hs : sortedB sites = true) :
    ∀ n a b, b - a ≤ n → b ≤ sites.length →
      (is_close_aux sites pos left right a b = true ↔
        ∃ i, a ≤ i ∧ i < b ∧ inWindow (sites.getD i 0) pos left right = true) := by
  intro n
  induction n with
  | zero =>
    intro a b hba hb
    have hab : b ≤ a := by omega
    rw [is_close_aux]
    simp only [dif_neg (by omega : ¬ a < b)]
    constructor
    · intro hfalse; exact absurd hfalse (by simp)
    · rintro ⟨i, hai, hib, _⟩; omega
  | succ n ih =>
    intro a b hba hb
    rw [is_close_aux]
    by_cases hab : a < b
    · simp only [dif_pos hab]
      set p := (b - a) / 2 + a with hp
      have hpa : a ≤ p := by omega
      have hpb : p < b := by omega
      by_cases hw : inWindow (sites.getD p 0) pos left right = true
      · simp only [hw, if_pos]
        constructor
        · intro _; exact ⟨p, hpa, hpb, hw⟩
        · intro _; trivial
      · simp only [hw]
        rw [if_neg (by simp [hw])]
        by_cases hgt : pos > sites.getD p 0
        · rw [if_pos hgt]
          rw [ih (p + 1) b (by omega) hb]
          -- the window fails at p with pos > site_pos, so it fails at each i ≤ p
          have hout : sites.getD p 0 + right < pos := by
            by_contra hout2
            exact hw (inWindow_iff.mpr ⟨by omega, by omega⟩)
          have hfail : ∀ i, i ≤ p → ¬ inWindow (sites.getD i 0) pos left right = true := by
            intro i hip hcontra
            rw [inWindow_iff] at hcontra
            have hmono : sites.getD i 0 ≤ sites.getD p 0 :=
              sortedB_mono hs i p hip (by omega)
            omega
          constructor
          · rintro ⟨i, hai, hib, hiw⟩; exact ⟨i, by omega, hib, hiw⟩
          · rintro ⟨i, hai, hib, hiw⟩
            refine ⟨i, ?_, hib, hiw⟩
            by_contra hip
            exact hfail i (by omega) hiw
        · rw [if_neg hgt]
          rw [ih a p (by omega) (by omega)]
          -- pos ≤ site_pos and the window fails, so it fails at each i ≥ p
          have hle : pos ≤ sites.getD p 0 := by omega
          have hout : pos < sites.getD p 0 - left := by
            by_contra hout2
            exact hw (inWindow_iff.mpr ⟨by omega, by omega⟩)
          have hfail : ∀ i, p ≤ i → i < sites.length →
              ¬ inWindow (sites.getD i 0) pos left right = true := by
            intro i hpi hilen hcontra
            rw [inWindow_iff] at hcontra
            have hmono : sites.getD p 0 ≤ sites.getD i 0 :=
              sortedB_mono hs p i hpi hilen
            omega
          constructor
          · rintro ⟨i, hai, hib, hiw⟩; exact ⟨i, hai, by omega, hiw⟩
          · rintro ⟨i, hai, hib, hiw⟩
            refine ⟨i, hai, ?_, hiw⟩
            by_contra hip
            exact hfail i (by omega) (by omega) hiw
    · simp only [dif_neg hab]
      constructor
      · intro hfalse; exact absurd hfalse (by simp)
      · rintro ⟨i, hai, hib, _⟩; omega

lemma exists_index_iff_mem (l : List Int) (P : Int → Prop) :
    (∃ i, i < l.length ∧ P (l.getD i 0)) ↔ ∃ x ∈ l, P x := by
  constructor
  · rintro ⟨i, hi, hp⟩
    refine ⟨l.getD i 0, ?_, hp⟩
    rw [List.getD_eq_getElem l 0 hi]
    exact List.getElem_mem hi
  · rintro ⟨x, hx, hp⟩
    obtain ⟨i, hi⟩ := List.mem_iff_get.mp hx
    refine ⟨i.1, i.2, ?_⟩
    rw [List.getD_eq_getElem l 0 i.2]
    simpa [← hi] using hp

/-- Shared form of the bisection-correctness result, used by the
tier-level properties as well. -/
lemma is_close_iff_exists
    (sites : List Int) (pos left right : Int)
    (hl : 0 ≤ left) (hr : 0 ≤ right) (hs : sortedB sites = true) :
    is_close_to_some_site sites pos left right = true ↔
      ∃ s ∈ sites, s - left ≤ pos ∧ pos ≤ s + right := by
  rw [is_close_to_some_site,
      is_close_aux_iff sites pos left right hl hr hs sites.length 0 sites.length
        (by omega) (by omega)]
  rw [← exists_index_iff_mem sites (fun s => s - left ≤ pos ∧ pos ≤ s + right)]
  constructor
  · rintro ⟨i, _, hib, hiw⟩
    exact ⟨i, hib, inWindow_iff.mp hiw⟩
  · rintro ⟨i, hib, hiw⟩
    exact ⟨i, Nat.zero_le i, hib, inWindow_iff.mpr hiw⟩

/-- C2: for a position-sorted site list and non-negative margins,
`is_close_to_some_site(left, right)` is true iff some site `s` satisfies
`s.position - left <= mutation_position <= s.position + right`; both
boundaries are inclusive, and on an empty site list it is false. -/
theorem is_close_to_some_site_iff_exists_site
    (sites : List Int) (pos left right : Int)
    (hl : 0 ≤ left) (hr : 0 ≤ right) (hs : sortedB sites = true) :
    is_close_to_some_site sites pos left right = true ↔
      ∃ s ∈ sites, s - left ≤ pos ∧ pos ≤ s + right :=
  is_close_iff_exists sites pos left right hl hr hs

/-- Witness for C2 at concrete inputs: sites `[3, 10]`, mutation at 5,
margins (3, 3) — a hit at inclusive distance; and the empty site list
answers false. -/
theorem is_close_to_some_site_iff_exists_site_witness :
    is_close_to_some_site [3, 10] 5 3 3 = true ∧
      is_close_to_some_site [] 5 3 3 = false := by
  constructor
  · exact (is_close_to_some_site_iff_exists_site [3, 10] 5 3 3
      (by decide) (by decide) (by decide)).mpr
      ⟨3, by decide, by decide, by decide⟩
  · rw [is_close_to_some_site, is_close_aux]
    simp

/-- `Mutation.is_ptm_direct` (models.py lines 218-221):
`is_close_to_some_site(0, 0)`. -/
def is_ptm_direct (sites : List Int) (pos : Int) : Bool :=
  is_close_to_some_site sites pos 0 0

/-- `Mutation.is_ptm_proximal` (models.py lines 223-230):
`is_close_to_some_site(3, 3)`. -/
def is_ptm_proximal (sites : List Int) (pos : Int) : Bool :=
  is_close_to_some_site sites pos 3 3

/-- `Mutation.is_ptm_distal` (models.py lines 232-239):
`is_close_to_some_site(7, 7)`. -/
def is_ptm_distal (sites : List Int) (pos : Int) : Bool :=
  is_close_to_some_site sites pos 7 7

/-- `Mutation.is_ptm` (models.py lines 209-216): delegates to
`is_ptm_distal`. -/
def is_ptm (sites : List Int) (pos : Int) : Bool :=
  is_ptm_distal sites pos

/-- `Mutation.impact_on_ptm` (models.py lines 300-313): the first
matching tier of 'direct', 'proximal', 'distal' wins; `None` when no
tier matches. -/
def impact_on_ptm (sites : List Int) (pos : Int) : Option String :=
  if is_ptm_direct sites pos then some "direct"
  else if is_ptm_proximal sites pos then some "proximal"
  else if is_ptm_distal sites pos then some "distal"
  else none

/-- C7: `is_ptm` holds iff some site lies within margins (7,7) of the
mutation, and `impact_on_ptm` labels the first matching tier: 'direct'
on a (0,0) hit, else 'proximal' on a (3,3) hit, else 'distal' on a
(7,7) hit, else none. -/
theorem is_ptm_and_impact_on_ptm_semantics (sites : List Int) (pos : Int)
    (hs : sortedB sites = true) :
    (is_ptm sites pos = true ↔ ∃ s ∈ sites, s - 7 ≤ pos ∧ pos ≤ s + 7) ∧
    (impact_on_ptm sites pos = some "direct" ↔ ∃ s ∈ sites, s = pos) ∧
    (impact_on_ptm sites pos = some "proximal" ↔
      ((∃ s ∈ sites, s - 3 ≤ pos ∧ pos ≤ s + 3) ∧ ¬ ∃ s ∈ sites, s = pos)) ∧
    (impact_on_ptm sites pos = some "distal" ↔
      ((∃ s ∈ sites, s - 7 ≤ pos ∧ pos ≤ s + 7) ∧
        ¬ ∃ s ∈ sites, s - 3 ≤ pos ∧ pos ≤ s + 3)) ∧
    (impact_on_ptm sites pos = none ↔
      ¬ ∃ s ∈ sites, s - 7 ≤ pos ∧ pos ≤ s + 7) := by
  have hdir : is_ptm_direct sites pos = true ↔ ∃ s ∈ sites, s = pos := by
    rw [is_ptm_direct, is_close_iff_exists sites pos 0 0 le_rfl le_rfl hs]
    constructor
    · rintro ⟨s, hm, h1, h2⟩; exact ⟨s, hm, by omega⟩
    · rintro ⟨s, hm, he⟩; exact ⟨s, hm, by omega, by omega⟩
  have hprox : is_ptm_proximal sites pos = true ↔
      ∃ s ∈ sites, s - 3 ≤ pos ∧ pos ≤ s + 3 := by
    rw [is_ptm_proximal]
    exact is_close_iff_exists sites pos 3 3 (by omega) (by omega) hs
  have hdist : is_ptm_distal sites pos = true ↔
      ∃ s ∈ sites, s - 7 ≤ pos ∧ pos ≤ s + 7 := by
    rw [is_ptm_distal]
    exact is_close_iff_exists sites pos 7 7 (by omega) (by omega) hs
  have hDP : (∃ s ∈ sites, s = pos) → ∃ s ∈ sites, s - 3 ≤ pos ∧ pos ≤ s + 3 := by
    rintro ⟨s, hm, he⟩; exact ⟨s, hm, by omega, by omega⟩
  have hPQ : (∃ s ∈ sites, s - 3 ≤ pos ∧ pos ≤ s + 3) →
      ∃ s ∈ sites, s - 7 ≤ pos ∧ pos ≤ s + 7 := by
    rintro ⟨s, hm, h1, h2⟩; exact ⟨s, hm, by omega, by omega⟩
  refine ⟨by rw [is_ptm]; exact hdist, ?_, ?_, ?_, ?_⟩ <;>
    by_cases hd : is_ptm_direct sites pos <;>
    by_cases hp : is_ptm_proximal sites pos <;>
    by_cases hq : is_ptm_distal sites pos <;>
    simp only [impact_on_ptm, hd, hp, hq, if_true, if_false,
      Bool.false_eq_true, ite_true, ite_false] <;>
    simp_all

/-- Witness for C7 at sites `[10]`, mutation position 12: the proximal
tier wins. -/
theorem is_ptm_and_impact_on_ptm_semantics_witness :
    impact_on_ptm [10] 12 = some "proximal" :=
  ((is_ptm_and_impact_on_ptm_semantics [10] 12 (by decide)).2.2.1).mpr
    ⟨⟨10, by decide, by decide, by decide⟩, by decide⟩

/-- C8: the proximity tiers are nested — a direct hit implies a
proximal hit implies a distal hit for every mutation position and
sorted site list — and neither reverse implication follows (concrete
sorted inputs separate the tiers). -/
theorem ptm_tiers_nested :
    (∀ sites pos, sortedB sites = true →
      (is_ptm_direct sites pos = true → is_ptm_proximal sites pos = true) ∧
      (is_ptm_proximal sites pos = true → is_ptm_distal sites pos = true)) ∧
    (∃ sites pos, sortedB sites = true ∧
      is_ptm_proximal sites pos = true ∧ is_ptm_direct sites pos = false) ∧
    (∃ sites pos, sortedB sites = true ∧
      is_ptm_distal sites pos = true ∧ is_ptm_proximal sites pos = false) := by
  refine ⟨?_, ?_, ?_⟩
  · intro sites pos hs
    constructor
    · intro hd
      rw [is_ptm_direct, is_close_iff_exists sites pos 0 0 le_rfl le_rfl hs] at hd
      rw [is_ptm_proximal, is_close_iff_exists sites pos 3 3 (by omega) (by omega) hs]
      obtain ⟨s, hm, h1, h2⟩ := hd
      exact ⟨s, hm, by omega, by omega⟩
    · intro hp
      rw [is_ptm_proximal, is_close_iff_exists sites pos 3 3 (by omega) (by omega) hs] at hp
      rw [is_ptm_distal, is_close_iff_exists sites pos 7 7 (by omega) (by omega) hs]
      obtain ⟨s, hm, h1, h2⟩ := hp
      exact ⟨s, hm, by omega, by omega⟩
  · refine ⟨[10], 12, by decide, ?_, ?_⟩
    · rw [is_ptm_proximal]
      exact (is_close_iff_exists [10] 12 3 3 (by omega) (by omega) (by decide)).mpr
        ⟨10, by decide, by decide, by decide⟩
    · rw [is_ptm_direct]
      rw [Bool.eq_false_iff]
      intro hd
      rw [is_close_iff_exists [10] 12 0 0 le_rfl le_rfl (by decide)] at hd
      revert hd
      decide
  · refine ⟨[10], 15, by decide, ?_, ?_⟩
    · rw [is_ptm_distal]
      exact (is_close_iff_exists [10] 15 7 7 (by omega) (by omega) (by decide)).mpr
        ⟨10, by decide, by decide, by decide⟩
    · rw [is_ptm_proximal]
      rw [Bool.eq_false_iff]
      intro hp
      rw [is_close_iff_exists [10] 15 3 3 (by omega) (by omega) (by decide)] at hp
      revert hp
      decide

/-- Witness for C8: applying the nesting result at sites `[10]`,
mutation position 12 (a proximal hit). -/
theorem ptm_tiers_nested_witness : is_ptm_distal [10] 12 = true :=
  (ptm_tiers_nested.1 [10] 12 (by decide)).2
    ((is_close_iff_exists [10] 12 3 3 (by decide) (by decide) (by decide)).mpr
      ⟨10, by decide, by decide, by decide⟩)

/-- The `cond()` closure of `Mutation.cnt_ptm_affected` (models.py
lines 269-274): reads `sites[p]` with Python indexing — a negative `p`
wraps around to the end of the list — and turns `IndexError` into
`False`. -/
def cntCond (sites : List Int) (pos : Int) (p : Int) : Bool :=
  match pyGet sites p with
  | some site_pos => decide (site_pos - 7 ≤ pos) && decide (pos ≤ site_pos + 7)
  | none => false

/-- The bisection phase of `Mutation.cnt_ptm_affected` (models.py lines
255-267): the `while a != b` loop either `break`s on a hit (returning
its index) or falls through to the `else: return 0` branch (`none`).
As in `is_close_aux`, the loop maintains `a ≤ b ≤ len sites`. -/
def findHit (sites : List Int) (pos : Int) (a b : Nat) : Option Nat :=
  if h : a < b then
    let p := (b - a) / 2 + a
    let site_pos := sites.getD p 0
    if inWindow site_pos pos 7 7 then some p
    else if pos > site_pos then findHit sites pos (p + 1) b
    else findHit sites pos a p
  else none
termination_by b - a
decreasing_by
  · omega
  · omega

lemma pyGet_some_bounds {l : List Int} {i v : Int} (h : pyGet l i = some v) :
    -(l.length : Int) ≤ i ∧ i < (l.length : Int) := by
  simp only [pyGet] at h
  by_cases hneg : i < 0
  · rw [if_pos hneg] at h
    by_cases hc : 0 ≤ (l.length : Int) + i ∧ (l.length : Int) + i < (l.length : Int)
    · omega
    · rw [if_neg hc] at h
      exact absurd h (by simp)
  · rw [if_neg hneg] at h
    by_cases hc : 0 ≤ i ∧ i < (l.length : Int)
    · omega
    · rw [if_neg hc] at h
      exact absurd h (by simp)

lemma cntCond_some {sites : List Int} {pos p : Int}
    (h : cntCond sites pos p = true) : ∃ v, pyGet sites p = some v := by
  rw [cntCond] at h
  cases hg : pyGet sites p with
  | none => rw [hg] at h; exact absurd h (by simp)
  | some v => exact ⟨v, rfl⟩

lemma cntCond_imp_lt {sites : List Int} {pos : Int} {p : Nat}
    (h : cntCond sites pos (p : Int) = true) : p < sites.length := by
  obtain ⟨v, hg⟩ := cntCond_some h
  have := pyGet_some_bounds hg
  omega

lemma cntCond_imp_ge {sites : List Int} {pos : Int} {p : Int}
    (h : cntCond sites pos p = true) : -(sites.length : Int) ≤ p := by
  obtain ⟨v, hg⟩ := cntCond_some h
  exact (pyGet_some_bounds hg).1

/-- The right extension loop of `Mutation.cnt_ptm_affected` (models.py
lines 276-280): starting from `hit + 1`, count while `cond()` holds. -/
def scanRight (sites : List Int) (pos : Int) (p : Nat) : Nat :=
  if h : cntCond sites pos (p : Int) = true then 1 + scanRight sites pos (p + 1)
  else 0
termination_by sites.length - p
decreasing_by
  have := cntCond_imp_lt h
  omega

/-- The left extension loop of `Mutation.cnt_ptm_affected` (models.py
lines 282-286): starting from `hit - 1`, count while `cond()` holds;
`p` may become negative, where Python indexing wraps around. -/
def scanLeft (sites : List Int) (pos : Int) (p : Int) : Nat :=
  if h : cntCond sites pos p = true then 1 + scanLeft sites pos (p - 1)
  else 0
termination_by (p + (sites.length : Int) + 1).toNat
decreasing_by
  have := cntCond_imp_ge h
  omega

/-- `Mutation.cnt_ptm_affected` (models.py lines 241-288): one
bisection hit (or 0 when the loop exhausts), then the two extension
scans. -/
def cnt_ptm_affected (sites : List Int) (pos : Int) : Nat :=
  match findHit sites pos 0 sites.length with
  | none => 0
  | some hit => 1 + scanRight sites pos (hit + 1) + scanLeft sites pos ((hit : Int) - 1)

/-- C1 (code bug): on the sorted site list `[10, 12]` and mutation
position 10, every site is within distance 7, so the claimed count is
the cardinality 2 — but `cnt_ptm_affected` returns 4: its left
extension loop decrements `p` below 0 and Python's negative indexing
wraps around to the end of the list, so both sites are counted again
before `p = -3` finally raises `IndexError`. -/
theorem cnt_ptm_affected_negative_index_overcount :
    cnt_ptm_affected [10, 12] 10 = 4 ∧
      (([10, 12] : List Int).filter (fun s => decide (|s - 10| ≤ 7))).length = 2 := by
  constructor
  · have hf : findHit [10, 12] 10 0 (([10, 12] : List Int).length) = some 1 := by
      rw [findHit]; norm_num [inWindow]
    rw [cnt_ptm_affected, hf]
    have hr : scanRight [10, 12] 10 2 = 0 := by
      rw [scanRight]; rw [dif_neg (by decide)]
    have hl : scanLeft [10, 12] 10 0 = 3 := by
      rw [scanLeft]; rw [dif_pos (by decide)]
      norm_num
      rw [scanLeft]; rw [dif_pos (by decide)]
      norm_num
      rw [scanLeft]; rw [dif_pos (by decide)]
      norm_num
      rw [scanLeft]; rw [dif_neg (by decide)]
    norm_num [hr, hl]
  · decide

/-- Key of a mutation row in `load_mutations`: `(pos, protein.id, alt)`
(import_data.py line 464 and line 544). -/
abbrev MKey := Int × Nat × Char

/-- In-session state of `load_mutations` (import_data.py lines
402-404): the id counter `mutations_cnt` (starting at 1) and the
pending cache `mutations`, an insertion-ordered map from key to
`(id, is_ptm)`. -/
structure MutSession where
  mutations_cnt : Nat
  mutations : List (MKey × (Nat × Bool))
deriving Repr, DecidableEq

/-- The persisted `Mutation` catalog as seen by the session: the
`(position, protein_id, alt)` key and the stored `(id, is_ptm)` of
each row. -/
abbrev Catalog := List (MKey × (Nat × Bool))

/-- Names that Python can resolve inside
`load_mutations.get_or_make_mutation`: its own locals, the enclosing
`load_mutations` function's local names (closure cells), and the
module-level globals of import_data.py.  `pos`, `protein` and `alt`
are assigned only inside the sibling closures `preparse_mutations` and
`parser`, so they appear in none of these scopes (nor are they
builtins). -/
def get_or_make_mutation_scope : List String :=
  -- locals of get_or_make_mutation
  ["key", "is_ptm", "mutation_id", "mutation"] ++
  -- locals of the enclosing load_mutations (closure lookup)
  ["proteins", "removed", "OrderedDict", "broken_seq", "mutations_cnt",
   "mutations", "flush_basic_mutations", "get_or_make_mutation",
   "preparse_mutations", "make_metadata_ordered_dict", "mimps", "sites",
   "header", "parser", "Counter", "mutations_counter", "cancer_parser",
   "esp_mutations", "esp_parser", "clinvar_mutations", "clinvar_keys",
   "clinvar_value_map", "clinvar_parser", "find_af_subfield_number",
   "thousand_genoms_mutations", "maf_keys", "line", "metadata",
   "maf_data", "values", "mutation_id", "chunk"] ++
  -- module globals of import_data.py
  ["time", "psutil", "tqdm", "db", "defaultdict", "get_or_create",
   "decode_mutation", "decode_raw_mutation", "Cancer", "CancerMutation",
   "Domain", "ExomeSequencingMutation", "Gene", "InterproDomain",
   "Kinase", "KinaseGroup", "MIMPMutation", "mutation_site_association",
   "Mutation", "Protein", "Site", "The1000GenomesMutation",
   "InheritedMutation", "buffered_readlines", "parse_fasta_file",
   "parse_tsv_file", "chunked_list", "read_from_files", "app",
   "MEMORY_LIMIT", "MEMORY_PERCENT_LIMIT", "system_memory_percent",
   "import_data", "calculate_interactors", "get_proteins", "load_domains",
   "select_preferred_isoforms", "load_sequences", "remove_wrong_proteins",
   "create_proteins_and_genes", "load_disorder", "load_cancers",
   "load_mutations", "genes", "memory_usage", "import_mappings",
   "get_preferred_gene_isoform", "make_site_kinases", "load_sites",
   "load_kinase_classification"]

/-- The `try` block of `get_or_make_mutation` (import_data.py lines
431-435): `Mutation.query.filter_by(position=pos, protein_id=protein.id,
alt=alt).one()`.  Evaluating the arguments looks up the free names
`pos`, `protein` and `alt`; if any is unresolvable Python raises
`NameError` before the query runs.  `.one()` itself raises unless
exactly one row matches.  Every raise lands in the bare
`except Exception` of line 436. -/
def query_catalog_one (catalog : Catalog) (key : MKey) : Except String Nat :=
  if "pos" ∈ get_or_make_mutation_scope ∧ "protein" ∈ get_or_make_mutation_scope ∧
      "alt" ∈ get_or_make_mutation_scope then
    match catalog.filter (fun r => r.1 == key) with
    | [r] => .ok r.2.1
    | _ => .error "NoResultFound or MultipleResultsFound"
  else .error "NameError"

/-- `load_mutations.get_or_make_mutation` (import_data.py lines
425-440): pending cache first, then the persisted-catalog query (whose
every failure, including the `NameError` on `pos`, is swallowed), else
mint `mutations_cnt` as the new id, record the key in the cache and
bump the counter. -/
def get_or_make_mutation (catalog : Catalog) (st : MutSession)
    (key : MKey) (is_ptm : Bool) : Nat × MutSession :=
  match st.mutations.lookup key with
  | some d => (d.1, st)
  | none =>
    match query_catalog_one catalog key with
    | .ok mid => (mid, st)
    | .error _ =>
      (st.mutations_cnt,
        { mutations_cnt := st.mutations_cnt + 1,
          mutations := st.mutations ++ [(key, (st.mutations_cnt, is_ptm))] })

/-- `load_mutations.flush_basic_mutations` (import_data.py lines
406-423): bulk-insert every pending record into the persisted catalog
and reset the pending cache to `{}` (the counter is untouched). -/
def flush_basic_mutations (catalog : Catalog) (st : MutSession) :
    Catalog × MutSession :=
  (catalog ++ st.mutations,
    { mutations_cnt := st.mutations_cnt, mutations := [] })

/-- C3 (code bug): resolving key (5, 1, 'A') in a fresh session mints
id 1, and a second resolution before the flush does return the same id
from the pending cache — but after `flush_basic_mutations` empties the
cache, the same key resolves to the fresh id 2: the persisted-catalog
query of lines 431-435 evaluates the free names `pos`, `protein`,
`alt`, which are not in scope, so the resulting `NameError` is caught
by the bare `except Exception` and a duplicate id is minted. -/
theorem get_or_make_mutation_flush_breaks_key_stability :
    (get_or_make_mutation [] ⟨1, []⟩ (5, 1, 'A') true).1 = 1 ∧
    ((get_or_make_mutation []
        (get_or_make_mutation [] ⟨1, []⟩ (5, 1, 'A') true).2
        (5, 1, 'A') false).1 = 1) ∧
    ((get_or_make_mutation
        (flush_basic_mutations [] (get_or_make_mutation [] ⟨1, []⟩ (5, 1, 'A') true).2).1
        (flush_basic_mutations [] (get_or_make_mutation [] ⟨1, []⟩ (5, 1, 'A') true).2).2
        (5, 1, 'A') true).1 = 2) := by decide

/-- C4 (code bug): with a persisted catalog already holding key
(5, 1, 'A') under id 42 and an empty pending cache, resolving that key
mints the fresh id 1 instead of returning 42, and records the key in
the pending cache for a later re-insert — the catalog lookup never
succeeds because of the `NameError` swallowed at line 436. -/
theorem get_or_make_mutation_ignores_persisted_catalog :
    (get_or_make_mutation [((5, 1, 'A'), (42, true))] ⟨1, []⟩ (5, 1, 'A') false).1 = 1 ∧
    (get_or_make_mutation [((5, 1, 'A'), (42, true))] ⟨1, []⟩ (5, 1, 'A') false).2.mutations
      = [((5, 1, 'A'), (1, false))] := by decide

/-- Python indexing on an arbitrary list (same semantics as `pyGet`,
needed at `Char` for `protein.sequence[pos - 1]` and at row level for
`line[-4]`). -/
def pyIdx {α : Type} (l : List α) (i : Int) : Option α :=
  let j : Int := if i < 0 then (l.length : Int) + i else i
  if 0 ≤ j ∧ j < (l.length : Int) then l.get? j.toNat else none

/-- A protein record as used by the mutation importers: primary key,
refseq accession and amino-acid sequence. -/
structure ProteinRec where
  id : Nat
  refseq : String
  sequence : List Char
deriving Repr, DecidableEq

/-- The sequence check of `preparse_mutations` (import_data.py lines
456-460) and of the MIMP parser (mimp.py lines 54-58):
`assert ref == protein.sequence[pos - 1]` inside
`try ... except (AssertionError, IndexError)` — an out-of-range index
(`IndexError`) and a residue mismatch (`AssertionError`) are both
caught and signal failure. -/
def validate_mutation (seq : List Char) (ref : Char) (pos : Int) : Bool :=
  match pyIdx seq (pos - 1) with
  | some c => ref == c
  | none => false

/-- The broken-sequence quarantine `broken_seq` (import_data.py line
398): `defaultdict(list)` receiving `broken_seq[refseq].append(
(protein.id, alt))`; embedded as the append log of
`(refseq, (protein.id, alt))` entries. -/
abbrev BrokenSeq := List (String × (Nat × Char))

/-- One decoded row of `preparse_mutations` after the protein lookup
(import_data.py lines 454-467): validate the triple against the
sequence; on failure append to the quarantine and `continue` (no
mutation id is minted, the session state is untouched); on success
resolve the id through `get_or_make_mutation`.  `is_ptm` stands for
the `bool(affected_sites)` argument of line 465, irrelevant to the
validation behaviour. -/
def preparse_one (protein : ProteinRec) (ref : Char) (pos : Int) (alt : Char)
    (broken : BrokenSeq) (catalog : Catalog) (st : MutSession) (is_ptm : Bool) :
    BrokenSeq × MutSession × Option Nat :=
  if validate_mutation protein.sequence ref pos then
    let r := get_or_make_mutation catalog st (pos, protein.id, alt) is_ptm
    (broken, r.2, some r.1)
  else
    (broken ++ [(protein.refseq, (protein.id, alt))], st, none)

/-- C5: for 1-based positions, validation succeeds exactly when the
sequence holds the claimed reference residue at the claimed position
(out-of-range positions fail); a failing row is appended to the
quarantine under the protein's accession with its `(protein.id, alt)`
pair and is skipped with no mutation id minted and no session change,
while a passing row resolves an id.  On the sequence `"MKLN*"`,
`(M, 1, A)` validates, `(K, 1, A)` fails (residue mismatch) and
`(M, 10, A)` fails (out of range). -/
theorem preparse_mutations_validation
    (protein : ProteinRec) (ref : Char) (pos : Int) (alt : Char)
    (broken : BrokenSeq) (catalog : Catalog) (st : MutSession) (is_ptm : Bool)
    (hpos : 1 ≤ pos) :
    (validate_mutation protein.sequence ref pos = true ↔
      protein.sequence.get? (pos - 1).toNat = some ref) ∧
    (validate_mutation protein.sequence ref pos = false →
      preparse_one protein ref pos alt broken catalog st is_ptm =
        (broken ++ [(protein.refseq, (protein.id, alt))], st, none)) ∧
    (validate_mutation protein.sequence ref pos = true →
      preparse_one protein ref pos alt broken catalog st is_ptm =
        (broken, (get_or_make_mutation catalog st (pos, protein.id, alt) is_ptm).2,
          some (get_or_make_mutation catalog st (pos, protein.id, alt) is_ptm).1)) ∧
    validate_mutation "MKLN*".toList 'M' 1 = true ∧
    validate_mutation "MKLN*".toList 'K' 1 = false ∧
    validate_mutation "MKLN*".toList 'M' 10 = false := by
  refine ⟨?_, ?_, ?_, by decide, by decide, by decide⟩
  · rw [validate_mutation]
    have hneg : ¬ (pos - 1 < 0) := by omega
    simp only [pyIdx, if_neg hneg]
    by_cases hc : 0 ≤ pos - 1 ∧ pos - 1 < (protein.sequence.length : Int)
    · rw [if_pos hc]
      cases hg : protein.sequence.get? (pos - 1).toNat with
      | none => simp
      | some c =>
        simp only [beq_iff_eq, Option.some.injEq]
        exact ⟨fun h => h.symm, fun h => h.symm⟩
    · rw [if_neg hc]
      constructor
      · intro hfalse; exact absurd hfalse (by simp)
      · intro hg
        obtain ⟨hlt, _⟩ := List.get?_eq_some.mp hg
        omega
  · intro hv
    rw [preparse_one, if_neg (by simp [hv])]
  · intro hv
    rw [preparse_one, if_pos hv]

/-- Witness for C5: the quarantined example row `(K, 1, A)` against
sequence `"MKLN*"` (residue mismatch). -/
theorem preparse_mutations_validation_witness :
    preparse_one ⟨7, "NM_000001", "MKLN*".toList⟩ 'K' 1 'A' [] [] ⟨1, []⟩ false
      = ([("NM_000001", (7, 'A'))], ⟨1, []⟩, none) :=
  (preparse_mutations_validation ⟨7, "NM_000001", "MKLN*".toList⟩ 'K' 1 'A'
    [] [] ⟨1, []⟩ false (by decide)).2.1 (by decide)

/-- A PTM site record as the MIMP importer sees it: primary key,
position and the names of its site types. -/
structure SiteRec where
  id : Nat
  position : Int
  types : List String
deriving Repr, DecidableEq

/-- The site-type expected by `MIMPImporter` (mimp.py line 31). -/
def mimp_site_type : String := "phosphorylation"

/-- The `affected_sites` selection of the MIMP parser (mimp.py lines
67-72): the protein's sites at the claimed position whose types
include the phosphorylation site type. -/
def mimp_affected_sites (sites : List SiteRec) (psite_pos : Int) : List SiteRec :=
  sites.filter
    (fun site => site.position == psite_pos && site.types.contains mimp_site_type)

/-- Row-level outcome of the site matching in the MIMP parser
(mimp.py lines 74-98). -/
inductive MimpRowOutcome where
  /-- `assert len(affected_sites) <= 1` (line 76) fails; the
  `AssertionError` is not caught anywhere in `parse` and propagates
  out of the importer. -/
  | assertionError : MimpRowOutcome
  /-- no matching site: a `UserWarning` is printed and `warn`ed and the
  parser returns without appending a detail record (lines 78-85). -/
  | skippedWithWarning : MimpRowOutcome
  /-- exactly one matching site: a detail record carrying its id is
  appended (lines 87-99). -/
  | emitted (site_id : Nat) : MimpRowOutcome
deriving Repr, DecidableEq

/-- The site-matching tail of the MIMP parser (mimp.py lines 67-99),
after the mutation id has been resolved: the assertion runs first,
then the no-match check, then `affected_sites[0].id` is used. -/
def mimp_site_outcome (sites : List SiteRec) (psite_pos : Int) : MimpRowOutcome :=
  let affected := mimp_affected_sites sites psite_pos
  if 1 < affected.length then .assertionError
  else
    match affected with
    | [] => .skippedWithWarning
    | s :: _ => .emitted s.id

/-- C6 counterexample: with two stored phosphorylation sites at the
claimed position 5, the MIMP parser does not skip the row with a
warning — the bare `assert len(affected_sites) <= 1` raises an
`AssertionError` that propagates out of the importer. -/
theorem mimp_ambiguous_site_counterexample :
    mimp_site_outcome [⟨1, 5, ["phosphorylation"]⟩, ⟨2, 5, ["phosphorylation"]⟩] 5
        = .assertionError ∧
      mimp_site_outcome [⟨1, 5, ["phosphorylation"]⟩, ⟨2, 5, ["phosphorylation"]⟩] 5
        ≠ .skippedWithWarning := by decide

/-- C6 as amended: if no stored site of the expected type at the
claimed position exists, the row is skipped with a diagnostic warning
and no detail record is emitted; if more than one site matches, the
parser raises an uncaught `AssertionError` (fatal, propagating past
the importer) rather than skipping the row — it never silently picks
the first match; a unique match emits that site's detail record. -/
theorem mimp_site_matching_behaviour (sites : List SiteRec) (psite_pos : Int) :
    ((¬ ∃ site ∈ sites, site.position = psite_pos ∧ mimp_site_type ∈ site.types) →
      mimp_site_outcome sites psite_pos = .skippedWithWarning) ∧
    (1 < (mimp_affected_sites sites psite_pos).length →
      mimp_site_outcome sites psite_pos = .assertionError) ∧
    (∀ s, mimp_affected_sites sites psite_pos = [s] →
      mimp_site_outcome sites psite_pos = .emitted s.id) := by
  refine ⟨?_, ?_, ?_⟩
  · intro hno
    have hempty : mimp_affected_sites sites psite_pos = [] := by
      rw [mimp_affected_sites, List.filter_eq_nil_iff]
      intro site hmem hcontra
      rw [Bool.and_eq_true] at hcontra
      exact hno ⟨site, hmem, by simpa using hcontra.1,
        List.mem_of_elem_eq_true hcontra.2⟩
    rw [mimp_site_outcome]
    simp [hempty]
  · intro hlen
    rw [mimp_site_outcome]
    simp only [if_pos hlen]
  · intro s hone
    rw [mimp_site_outcome]
    simp [hone]

/-- Witness for C6 (amended): one stored site of a different type —
the row is skipped with a warning. -/
theorem mimp_site_matching_behaviour_witness :
    mimp_site_outcome [⟨3, 9, ["methylation"]⟩] 5 = .skippedWithWarning :=
  (mimp_site_matching_behaviour [⟨3, 9, ["methylation"]⟩] 5).1 (by decide)

/-- Python truthiness of a string: non-empty strings are truthy. -/
def pyTruthy (s : String) : Bool := !s.isEmpty

/-- The fields of a newly created gene in
`create_proteins_and_genes.parser` (import_data.py lines 299-304):
`name = line[-4]`, `chrom = line[2][3:]`, and
`strand = 1 if '+' else 0` — note the condition of line 303 is the
constant string literal `'+'`, not the line's strand column
(`line[3]`). -/
structure GeneData where
  name : Option String
  chrom : Option String
  strand : Nat
deriving Repr, DecidableEq

/-- Gene data computed from one parsed row (import_data.py lines
299-304). -/
def parsed_gene_data (line : List String) : GeneData :=
  { name := pyIdx line (-4)
    chrom := (pyIdx line 2).map (fun s => s.drop 3)
    strand := if pyTruthy "+" then 1 else 0 }

/-- C9: the strand stored for every newly created gene is 1,
independent of the input row (in particular of its strand column):
the boolean condition `'+'` of line 303 is a non-empty string literal
and hence always truthy. -/
theorem parsed_gene_strand_always_one (line : List String) :
    (parsed_gene_data line).strand = 1 := by
  simp only [parsed_gene_data]
  decide

/-- The per-protein `hit` test of `remove_wrong_proteins`
(import_data.py lines 242-251): `'*' in protein.sequence[:-1]` (stop
codon inside), `protein.sequence[-1] != '*'` (no stop at the end —
raises `IndexError` on an empty sequence, embedded as `none`), and
`'*' not in protein.sequence` (no stop at all); the protein is removed
when any of the three holds. -/
def protein_wrong (seq : List Char) : Option Bool :=
  let stop_inside := seq.dropLast.contains '*'
  match pyIdx seq (-1) with
  | none => none
  | some last =>
    let no_stop_at_the_end := last != '*'
    let lack_of_stop := !(seq.contains '*')
    some (stop_inside || no_stop_at_the_end || lack_of_stop)

/-- `remove_wrong_proteins` (import_data.py lines 232-266): every
protein whose `hit` test holds is deleted from the refseq-keyed
`proteins` dict and its refseq collected into the returned set; an
empty sequence raises `IndexError` out of the function (`none`).  The
dict is embedded as a list of records keyed by distinct refseqs, so
deletion is filtering. -/
def remove_wrong_proteins (proteins : List ProteinRec) :
    Option (List ProteinRec × List String) :=
  if proteins.all (fun p => (protein_wrong p.sequence).isSome) then
    some
      (proteins.filter (fun p => !(protein_wrong p.sequence).getD true),
        (proteins.filter (fun p => (protein_wrong p.sequence).getD true)).map
          (fun p => p.refseq))
  else none

lemma pyIdx_neg_one {α : Type} (l : List α) : pyIdx l (-1) = l.getLast? := by
  cases l with
  | nil => rfl
  | cons a t =>
    have hlen : 0 < (a :: t).length := by simp
    simp only [pyIdx]
    rw [if_pos (by constructor <;> omega)]
    rw [List.getLast?_eq_getElem?, List.get?_eq_getElem?]
    congr 1
    omega

lemma protein_wrong_false_iff {seq : List Char} {b : Bool}
    (h : protein_wrong seq = some b) :
    b = false ↔ (seq.getLast? = some '*' ∧ '*' ∉ seq.dropLast) := by
  rw [protein_wrong] at h
  rw [pyIdx_neg_one] at h
  cases hg : seq.getLast? with
  | none => rw [hg] at h; exact absurd h (by simp)
  | some last =>
    rw [hg] at h
    simp only [Option.some.injEq] at h
    subst h
    simp only [Bool.or_eq_false_iff, bne_eq_false_iff_eq, Bool.not_eq_false]
    constructor
    · rintro ⟨⟨hin, hlast⟩, hcont⟩
      subst hlast
      refine ⟨rfl, fun hmem => ?_⟩
      rw [← Bool.not_eq_true] at hin
      exact hin (List.elem_eq_true_of_mem hmem)
    · rintro ⟨hlast, hnin⟩
      simp only [Option.some.injEq] at hlast
      subst hlast
      refine ⟨⟨?_, rfl⟩, ?_⟩
      · rw [← Bool.not_eq_true]
        intro hcontra
        exact hnin (List.mem_of_elem_eq_true hcontra)
      · rw [Bool.not_eq_false']
        exact List.elem_eq_true_of_mem (List.mem_of_mem_getLast? hg)

/-- C10: whenever `remove_wrong_proteins` returns, every remaining
protein's sequence ends with the stop marker `'*'` and has no `'*'`
earlier, and the returned removed-set holds exactly the refseq
accessions of the proteins violating these rules. -/
theorem remove_wrong_proteins_spec
    (proteins remaining : List ProteinRec) (removed : List String)
    (h : remove_wrong_proteins proteins = some (remaining, removed)) :
    (∀ p ∈ remaining, p.sequence.getLast? = some '*' ∧ '*' ∉ p.sequence.dropLast) ∧
    (∀ r, r ∈ removed ↔ ∃ p ∈ proteins, p.refseq = r ∧
      ¬ (p.sequence.getLast? = some '*' ∧ '*' ∉ p.sequence.dropLast)) := by
  rw [remove_wrong_proteins] at h
  by_cases hall : proteins.all (fun p => (protein_wrong p.sequence).isSome) = true
  · rw [if_pos hall] at h
    simp only [Option.some.injEq, Prod.mk.injEq] at h
    obtain ⟨hrem, hrm⟩ := h
    have hsome : ∀ p ∈ proteins, ∃ b, protein_wrong p.sequence = some b := by
      intro p hp
      have := List.all_eq_true.mp hall p hp
      exact Option.isSome_iff_exists.mp this
    constructor
    · intro p hp
      rw [← hrem] at hp
      obtain ⟨hmem, hkeep⟩ := List.mem_filter.mp hp
      obtain ⟨b, hb⟩ := hsome p hmem
      rw [hb] at hkeep
      simp only [Option.getD_some, Bool.not_eq_true'] at hkeep
      exact (protein_wrong_false_iff hb).mp hkeep
    · intro r
      rw [← hrm]
      constructor
      · intro hr
        obtain ⟨p, hpf, hpr⟩ := List.mem_map.mp hr
        obtain ⟨hmem, hhit⟩ := List.mem_filter.mp hpf
        obtain ⟨b, hb⟩ := hsome p hmem
        rw [hb] at hhit
        simp only [Option.getD_some] at hhit
        refine ⟨p, hmem, hpr, fun hgood => ?_⟩
        have := (protein_wrong_false_iff hb).mpr hgood
        rw [this] at hhit
        exact absurd hhit (by simp)
      · rintro ⟨p, hmem, hpr, hbad⟩
        refine List.mem_map.mpr ⟨p, List.mem_filter.mpr ⟨hmem, ?_⟩, hpr⟩
        obtain ⟨b, hb⟩ := hsome p hmem
        rw [hb]
        simp only [Option.getD_some]
        cases b with
        | true => rfl
        | false => exact absurd ((protein_wrong_false_iff hb).mp rfl) hbad
  · rw [if_neg hall] at h
    exact absurd h (by simp)

/-- Witness for C10 on proteins `("NM_1", "MA*")` (kept),
`("NM_2", "M*A")` (stop inside) and `("NM_3", "MA")` (no stop at the
end): the kept protein satisfies the stop-marker rules. -/
theorem remove_wrong_proteins_spec_witness :
    (⟨1, "NM_1", "MA*".toList⟩ : ProteinRec).sequence.getLast? = some '*' ∧
      '*' ∉ (⟨1, "NM_1", "MA*".toList⟩ : ProteinRec).sequence.dropLast :=
  (remove_wrong_proteins_spec
      [⟨1, "NM_1", "MA*".toList⟩, ⟨2, "NM_2", "M*A".toList⟩, ⟨3, "NM_3", "MA".toList⟩]
      [⟨1, "NM_1", "MA*".toList⟩] ["NM_2", "NM_3"] (by decide)).1
    ⟨1, "NM_1", "MA*".toList⟩ (by decide)
